import Mathlib

/-!
Verification of the doctor availability / appointment scheduling core of the
shastho EHR web application, as implemented in the repository
(`app/utils/db.py`, `app/services/doctor_service.py`, `app/routes/patient.py`,
`app/models/database.py`).

Modelling conventions for the shallow embedding:
- times of day are minutes since midnight (`Nat`); the Python code compares
  `datetime.time` / `datetime` values, a total order which `Nat` models faithfully;
- dates are day indices (`Nat`); `datetime.weekday()` (Monday = 0) is modelled by
  `fun d => d % 7` with day index 0 falling on a Monday; all the code does with a
  date is compute its weekday and compare dates for equality/order, which this
  encoding supports; `dateISO` renders a date injectively, standing in for the
  `%Y-%m-%d` rendering (only equality of renderings matters to the code);
- UUIDs are `Nat` ids; fresh uuid4 values are modelled by a `nextId` counter kept
  in the store (uuid freshness becomes the invariant `id < nextId`);
- the Supabase store is a pure `Store` value; each db helper becomes a pure
  function over it; db writes that can fail are parametrised by a `StoreOps`
  oracle saying which create/update/delete calls succeed.
-/


/-- The `AppointmentStatus(str, Enum)` of `app/models/database.py`.  Note that in
Python this enum subclasses `str`, so its members also behave as their value
strings; this fact is reflected where the code branches on `isinstance(x, str)`. -/
inductive AppointmentStatus
  | scheduled
  | completed
  | cancelled
  | noShow
deriving DecidableEq, Repr

/-- The `.value` string of each `AppointmentStatus` member. -/
def AppointmentStatus.value : AppointmentStatus → String
  | .scheduled => "scheduled"
  | .completed => "completed"
  | .cancelled => "cancelled"
  | .noShow => "no-show"

/-- The Python runtime value held in an appointment's `status` attribute: an
`AppointmentStatus` member, a plain string, or `None`. -/
inductive PyStatus
  | enumV (s : AppointmentStatus)
  | strV (s : String)
  | noneV
deriving DecidableEq, Repr

/-- `AppointmentStatus(s)` on a plain string: `some` member whose value is `s`,
otherwise a `ValueError` (`none`). -/
def statusOfString (s : String) : Option AppointmentStatus :=
  if s = "scheduled" then some .scheduled
  else if s = "completed" then some .completed
  else if s = "cancelled" then some .cancelled
  else if s = "no-show" then some .noShow
  else none

/-- Status normalisation performed by `Appointment.from_dict`
(`app/models/database.py`): a string status is converted with
`AppointmentStatus(status)`, and an invalid string falls back to
`AppointmentStatus.SCHEDULED`; a member or `None` passes through. -/
def fromDictStatus : PyStatus → PyStatus
  | .enumV s => .enumV s
  | .strV s =>
      match statusOfString s with
      | some m => .enumV m
      | none => .enumV .scheduled
  | .noneV => .noneV

/-- A row of the `doctor_availability_slots` table
(`DoctorAvailabilitySlot` in `app/models/database.py`). -/
structure DoctorAvailabilitySlot where
  id : Nat
  doctor_id : Nat
  day_of_week : Nat
  start_time : Nat
  end_time : Nat
  slot_duration_minutes : Option Nat
  is_available : Bool
deriving DecidableEq, Repr

/-- A row of the `appointments` table.  Its columns are exactly the keys produced
by `Appointment.to_dict` (`app/models/database.py`): id, patient_id, doctor_id,
hospital_id, department_id, date, time_slot, status, created_at, updated_at.
The booked window lives in `time_slot` as a Postgres `tstzrange` literal string;
there are no `start_time` / `end_time` columns. -/
structure AppointmentRow where
  id : Nat
  patient_id : Nat
  doctor_id : Nat
  date : Nat
  time_slot : String
  status : PyStatus
deriving DecidableEq, Repr

/-- The persisted state owned by the store, plus the uuid freshness counter. -/
structure Store where
  avail : List DoctorAvailabilitySlot
  appts : List AppointmentRow
  nextId : Nat
deriving DecidableEq, Repr

/-- `datetime.fromisoformat(date_str).weekday()` with Monday = 0, over day
indices where index 0 is a Monday. -/
def dayOfWeek (date : Nat) : Nat := date % 7

/-- Injective stand-in for the `%Y-%m-%d` rendering of a day index. -/
def dateISO (date : Nat) : String := toString date

/-- The three-clause interval test written out in
`get_available_slots_for_booking` (`app/utils/db.py`) and reproduced in the
duplicate-slot scan of `bulk_update_availability`
(`app/services/doctor_service.py`):
`(sA >= sB and sA < eB) or (eA > sB and eA <= eB) or (sA <= sB and eA >= eB)`. -/
def overlaps3 (sA eA sB eB : Nat) : Bool :=
  (decide (sB ≤ sA) && decide (sA < eB)) ||
  (decide (sB < eA) && decide (eA ≤ eB)) ||
  (decide (sA ≤ sB) && decide (eB ≤ eA))

/-- Python `slot.slot_duration_minutes or 30` in `get_available_slots_for_booking`:
`None` and the falsy `0` both give the default 30. -/
def effectiveDuration : Option Nat → Nat
  | none => 30
  | some 0 => 30
  | some (d + 1) => d + 1

/-- The candidate-slot loop of `get_available_slots_for_booking`:
`while slot_time + duration <= end_time: emit [slot_time, slot_time + duration); slot_time += duration`.
The guard carries the loop's termination precondition `0 < d`; every call site
passes `effectiveDuration`, which is always positive, so on all reachable inputs
the guard coincides with the Python condition `t + d ≤ e`. -/
def walkSlots (t e d : Nat) : List (Nat × Nat) :=
  if _h : 0 < d ∧ t + d ≤ e then (t, t + d) :: walkSlots (t + d) e d else []
termination_by e - t
decreasing_by omega

/-- `get_availability_by_day` (`app/utils/db.py`): rows of the availability
table filtered by doctor and day of week. -/
def get_availability_by_day (st : Store) (doctorId day : Nat) :
    List DoctorAvailabilitySlot :=
  st.avail.filter (fun s => s.doctor_id == doctorId && s.day_of_week == day)

/-- `get_appointments_by_date` (`app/utils/db.py`): rows of the appointments
table filtered by doctor and date.  It applies **no status filter** and returns
the raw response dictionaries (no `from_dict` conversion). -/
def get_appointments_by_date (st : Store) (doctorId date : Nat) :
    List AppointmentRow :=
  st.appts.filter (fun a => a.doctor_id == doctorId && a.date == date)

/-- `appt.get('start_time')` on a raw appointments-table row.  The table's
columns are those of `Appointment.to_dict` — there is no `start_time` column
(the window is the `time_slot` tstzrange string) — so the lookup yields `None`. -/
def AppointmentRow.getStartTimeKey (_ : AppointmentRow) : Option Nat := none

/-- `appt.get('end_time')` on a raw appointments-table row; the key is absent,
so the lookup yields `None`. -/
def AppointmentRow.getEndTimeKey (_ : AppointmentRow) : Option Nat := none

/-- The per-appointment conflict test in the slot loop of
`get_available_slots_for_booking`: guarded by the truthiness of
`appt.get('start_time')` and `appt.get('end_time')`, then the three-clause
interval test. -/
def conflictsWithAppt (slotStart slotEnd : Nat) (a : AppointmentRow) : Bool :=
  match a.getStartTimeKey, a.getEndTimeKey with
  | some as_, some ae => overlaps3 slotStart slotEnd as_ ae
  | _, _ => false

/-- An element of the list returned by `get_available_slots_for_booking`
(start/end rendered back to minutes; the code renders `%H:%M` strings). -/
structure SlotOut where
  start_time : Nat
  end_time : Nat
  duration_minutes : Nat
deriving DecidableEq, Repr

/-- The body of the `for slot in slots` loop of
`get_available_slots_for_booking`: skip templates with `is_available` false,
walk the candidate windows, and keep a candidate unless some fetched
appointment conflicts with it. -/
def perSlotOutput (appointments : List AppointmentRow)
    (s : DoctorAvailabilitySlot) : List SlotOut :=
  if s.is_available then
    let d := effectiveDuration s.slot_duration_minutes
    (walkSlots s.start_time s.end_time d).filterMap (fun p =>
      if appointments.any (fun a => conflictsWithAppt p.1 p.2 a) then none
      else some ⟨p.1, p.2, d⟩)
  else []

/-- `get_available_slots_for_booking(doctor_id, date_str)` (`app/utils/db.py`):
compute the weekday, fetch that day's availability rows and the date's
appointment rows, and append the surviving candidates template by template, in
stored order. -/
def get_available_slots_for_booking (st : Store) (doctorId date : Nat) :
    List SlotOut :=
  let slots := get_availability_by_day st doctorId (dayOfWeek date)
  let appointments := get_appointments_by_date st doctorId date
  (slots.map (perSlotOutput appointments)).flatten

/-- `get_available_booking_slots` (`app/services/doctor_service.py`): delegates
to the db layer inside `try/except` and returns an empty list when the store
raises. -/
def get_available_booking_slots (res : Except String (List SlotOut)) :
    List SlotOut :=
  match res with
  | .ok l => l
  | .error _ => []

/-- Two-digit zero padding, as produced by `strftime` fields `%H`, `%M`, `%S`,
`%I`. -/
def fmt2 (n : Nat) : String := (if n < 10 then "0" else "") ++ toString n

/-- `strftime('%H:%M:%S')` of a minutes-of-day value. -/
def fmtHMS (m : Nat) : String := fmt2 (m / 60) ++ ":" ++ fmt2 (m % 60) ++ ":00"

/-- The Postgres tstzrange literal built in `submit_appointment`
(`app/routes/patient.py`):
`f'["{start %Y-%m-%d %H:%M:%S+00}","{end %Y-%m-%d %H:%M:%S+00}")'`. -/
def postgresTimeSlot (dateS : String) (startM endM : Nat) : String :=
  "[\"" ++ dateS ++ " " ++ fmtHMS startM ++ "+00\",\"" ++
    dateS ++ " " ++ fmtHMS endM ++ "+00\")"

/-- The 12-hour clock hour of `strftime('%I')`. -/
def hour12 (h : Nat) : Nat := if h % 12 = 0 then 12 else h % 12

/-- `strftime('%I:%M %p')` of a minutes-of-day value, e.g. `"09:00 AM"`. -/
def fmtAMPM (m : Nat) : String :=
  fmt2 (hour12 (m / 60)) ++ ":" ++ fmt2 (m % 60) ++ " " ++
    (if m / 60 < 12 then "AM" else "PM")

/-- The display-format time-slot string the booking form submits, as produced by
`get_time_slots` (`app/routes/patient.py`): `f"{start} - {end}"` with both ends
rendered `%I:%M %p`. -/
def displayTimeSlot (startM endM : Nat) : String :=
  fmtAMPM startM ++ " - " ++ fmtAMPM endM

/-- `get_appointments_by_doctor_date` (`app/utils/db.py`): rows filtered by
doctor and date, each converted through `Appointment.from_dict` (which
normalises the status). -/
def get_appointments_by_doctor_date (st : Store) (doctorId date : Nat) :
    List AppointmentRow :=
  (st.appts.filter (fun a => a.doctor_id == doctorId && a.date == date)).map
    (fun a => { a with status := fromDictStatus a.status })

/-- The `is_scheduled` test of `submit_appointment` (`app/routes/patient.py`).
Because `AppointmentStatus` subclasses `str`, a member satisfies
`isinstance(appt.status, str)` and is compared with
`AppointmentStatus.SCHEDULED.value`, which a str-enum member equals exactly when
it is the scheduled member; `None` falls to the enum comparison and fails it. -/
def isScheduledStatus : PyStatus → Bool
  | .enumV s => s == .scheduled
  | .strV s => s == "scheduled"
  | .noneV => false

/-- Result of the booking-commit section of `submit_appointment`. -/
inductive BookResult
  | unavailable
  | booked (st : Store)
deriving DecidableEq, Repr

/-- The commit section of `submit_appointment` (`app/routes/patient.py`,
after form parsing and patient lookup): build the display string `time_slot`
and the range literal `postgres_time_slot`, fetch the doctor's appointments for
the date, keep those whose status is scheduled, reject when one of them has a
`time_slot` column **equal as a string** to the submitted display string, and
otherwise insert a new appointment whose `time_slot` is the range literal and
whose status is Scheduled. -/
def submit_appointment (st : Store)
    (doctorId patientId date startM endM : Nat) : BookResult :=
  let time_slot := displayTimeSlot startM endM
  let postgres_time_slot := postgresTimeSlot (dateISO date) startM endM
  let existing := get_appointments_by_doctor_date st doctorId date
  let conflicting := existing.filter (fun a => isScheduledStatus a.status)
  if conflicting.any (fun a => a.time_slot == time_slot) then
    .unavailable
  else
    .booked { st with
      appts := st.appts ++
        [{ id := st.nextId, patient_id := patientId, doctor_id := doctorId,
           date := date, time_slot := postgres_time_slot,
           status := .enumV .scheduled }],
      nextId := st.nextId + 1 }

/-- The status gate of `cancel_appointment` (`app/routes/patient.py`), returning
`true` when the branch rejects the cancellation.  `AppointmentStatus` subclasses
`str`, so an enum member takes the `isinstance(..., str)` branch, converts
successfully, and — the converted value never being compared — passes the gate;
a raw string only reaches the fallback comparison against
`'completed'`/`'cancelled'` when `AppointmentStatus(s)` raised `ValueError`;
`None` takes the enum-membership branch and is not a member. -/
def cancelStatusRejects : PyStatus → Bool
  | .enumV _ => false
  | .strV s =>
      match statusOfString s with
      | some _ => false
      | none => s == "completed" || s == "cancelled"
  | .noneV => false

/-- Result of `cancel_appointment`.  There is no success constructor: the
final write is unreachable (see `cancel_appointment`), so the function can
only reject or report the caught update error. -/
inductive CancelResult
  | notFound
  | statusRejected
  | pastRejected
  | updateError
deriving DecidableEq, Repr

/-- `cancel_appointment(appointment_id)` (`app/routes/patient.py`): load the
appointment via `db.get_by_id` (a `from_dict` conversion), check ownership,
run the status gate, reject past dates (`appointment.date < date.today()`),
and then attempt the status write.  That write is
`db.update(Appointment, appointment.id, {...})` — three arguments against
`Database.update(self, model)` (`app/utils/db.py`), so it raises `TypeError`
before touching the store; the route's `except` catches it and flashes an
error.  No branch of this function mutates the store: the program never
transitions an appointment to Cancelled. -/
def cancel_appointment (st : Store) (patientId apptId today : Nat) :
    CancelResult :=
  match st.appts.find? (fun a => a.id == apptId) with
  | none => .notFound
  | some row =>
    let appt := { row with status := fromDictStatus row.status }
    if appt.patient_id ≠ patientId then .notFound
    else if cancelStatusRejects appt.status then .statusRejected
    else if appt.date < today then .pastRejected
    else .updateError

/-- One entry of the `slots_data` list submitted to `bulk_update_availability`
(`app/services/doctor_service.py`).  Times are carried already parsed to
minutes; the `HH:MM` → `HH:MM:SS` normalisation and `strptime` plumbing of the
source operate on the same values.  `none` models an absent (or, for
`doctor_id`, falsy) key. -/
structure SlotData where
  doctor_id : Option Nat
  id : Option Nat
  day_of_week : Nat
  start_time : Nat
  end_time : Nat
  slot_duration_minutes : Option Nat
  is_available : Option Bool
deriving DecidableEq, Repr

/-- Which store writes succeed, modelling the `try/except`-guarded db calls of
the execution phase: `add_doctor_availability_slot` (by the fresh id it would
assign), `update_availability_slot`, and `delete_availability_slot`. -/
structure StoreOps where
  createOk : Nat → Bool
  updateOk : Nat → Bool
  deleteOk : Nat → Bool

/-- The oracle under which every store write succeeds. -/
def allOk : StoreOps := ⟨fun _ => true, fun _ => true, fun _ => true⟩

/-- The doctor-id extraction loop of `bulk_update_availability`: the first
slot whose `doctor_id` key is present and truthy. -/
def extractDoctorId : List SlotData → Option Nat
  | [] => none
  | d :: rest =>
      match d.doctor_id with
      | some i => some i
      | none => extractDoctorId rest

/-- Accumulator entry of the duplicate-slot scan: `(start_time, end_time,
slot_index)` stored under the slot's day in `day_time_slots`. -/
structure DayEntry where
  day : Nat
  start_time : Nat
  end_time : Nat
  idx : Nat
deriving DecidableEq, Repr

/-- The duplicate-slot scan of `bulk_update_availability`: for each descriptor,
in order, compare its window against the windows already recorded for the same
`day_of_week` with the three-clause interval test, and report each offending
pair `(i, idx)` — the source only prints these pairs and continues. -/
def detectOverlapsAux : List SlotData → Nat → List DayEntry → List (Nat × Nat)
  | [], _, _ => []
  | d :: rest, i, acc =>
      let hits := (acc.filter (fun q =>
        q.day == d.day_of_week &&
          overlaps3 d.start_time d.end_time q.start_time q.end_time)).map
        (fun q => (i, q.idx))
      hits ++ detectOverlapsAux rest (i + 1)
        (acc ++ [⟨d.day_of_week, d.start_time, d.end_time, i⟩])

/-- The offending index pairs found (and merely logged) by the duplicate-slot
scan. -/
def detectOverlaps (slots : List SlotData) : List (Nat × Nat) :=
  detectOverlapsAux slots 0 []

/-- Intermediate state of the per-slot processing loop: the evolving store and
the `processed_slot_ids` set (kept as a list in insertion order). -/
structure ProcState where
  store : Store
  processed : List Nat
deriving DecidableEq, Repr

/-- `add_availability_slot` (`app/services/doctor_service.py`) as invoked from
the processing loop: construct a new `DoctorAvailabilitySlot` with a fresh id,
`is_available=True`, and the given duration, and insert it when the db write
succeeds; on success the fresh id joins `processed_slot_ids`. -/
def tryCreateSlot (ops : StoreOps) (doctorId : Nat) (d : SlotData) (dur : Nat)
    (ps : ProcState) : ProcState :=
  let fresh := ps.store.nextId
  let newSlot : DoctorAvailabilitySlot :=
    { id := fresh, doctor_id := doctorId, day_of_week := d.day_of_week,
      start_time := d.start_time, end_time := d.end_time,
      slot_duration_minutes := some dur, is_available := true }
  if ops.createOk fresh then
    let st1 : Store :=
      { avail := ps.store.avail ++ [newSlot], appts := ps.store.appts,
        nextId := fresh + 1 }
    { store := st1, processed := ps.processed ++ [fresh] }
  else
    { ps with store := { ps.store with nextId := fresh + 1 } }

/-- One iteration of the `for slot_data in slots_data` loop of
`bulk_update_availability`: duration defaults to 60, availability to `True`;
a descriptor carrying an id that exists in the snapshot is marked processed and
updated in place (an update failure is only logged); a descriptor carrying an
unknown id, or no id, creates a new slot instead. -/
def processSlot (ops : StoreOps) (existingIds : List Nat) (doctorId : Nat)
    (ps : ProcState) (d : SlotData) : ProcState :=
  let dur := d.slot_duration_minutes.getD 60
  let avail := d.is_available.getD true
  match d.id with
  | some i =>
      if existingIds.contains i then
        let withProcessed : ProcState :=
          { ps with processed := ps.processed ++ [i] }
        if ops.updateOk i then
          let updateRow := fun (s : DoctorAvailabilitySlot) =>
            if s.id == i then
              { s with
                day_of_week := d.day_of_week
                start_time := d.start_time
                end_time := d.end_time
                is_available := avail
                slot_duration_minutes := some dur }
            else s
          let st1 : Store :=
            { withProcessed.store with
              avail := withProcessed.store.avail.map updateRow }
          { withProcessed with store := st1 }
        else withProcessed
      else tryCreateSlot ops doctorId d dur ps
  | none => tryCreateSlot ops doctorId d dur ps

/-- One iteration of the deletion loop of `bulk_update_availability`: an
existing slot id that was never marked processed is deleted (when the db write
succeeds). -/
def deleteStep (ops : StoreOps) (processed : List Nat) (st : Store) (i : Nat) :
    Store :=
  if processed.contains i then st
  else if ops.deleteOk i then
    { st with avail := st.avail.filter (fun s => s.id != i) }
  else st

/-- `bulk_update_availability(slots_data)` (`app/services/doctor_service.py`):
reject an empty batch and a batch without a usable `doctor_id`; snapshot the
doctor's existing slots; run the duplicate-slot scan (whose findings are only
logged); process every descriptor; finally delete the snapshot ids never marked
processed.  Returns the final store and the boolean result — `true` on every
path that reaches the processing loop. -/
def bulk_update_availability (ops : StoreOps) (st : Store)
    (slots_data : List SlotData) : Store × Bool :=
  if slots_data.isEmpty then (st, false)
  else
    match extractDoctorId slots_data with
    | none => (st, false)
    | some doctorId =>
        let existing := st.avail.filter (fun s => s.doctor_id == doctorId)
        let existingIds := existing.map (fun s => s.id)
        let ps := slots_data.foldl (processSlot ops existingIds doctorId)
          ⟨st, []⟩
        let final := existingIds.foldl (deleteStep ops ps.processed) ps.store
        (final, true)

/-- The Scenario-A template: Monday (day 0), 09:00–12:00 (540–720 minutes),
30-minute slots. -/
def scenarioTemplate : DoctorAvailabilitySlot :=
  { id := 1, doctor_id := 7, day_of_week := 0, start_time := 540,
    end_time := 720, slot_duration_minutes := some 30, is_available := true }

/-- The Scenario-A store: the single template above, no appointments. -/
def scenarioStore : Store :=
  { avail := [scenarioTemplate], appts := [], nextId := 2 }

/-- A Scheduled appointment row for doctor 7 on date 7 (a Monday) whose
`time_slot` range covers 10:00–10:30 (600–630 minutes). -/
def c2Appt : AppointmentRow :=
  { id := 1, patient_id := 5, doctor_id := 7, date := 7,
    time_slot := postgresTimeSlot (dateISO 7) 600 630,
    status := .enumV .scheduled }

/-- Scenario-B store: the Scenario-A template plus the Scheduled 10:00–10:30
appointment on that Monday. -/
def c2Store : Store :=
  { avail := [scenarioTemplate], appts := [c2Appt], nextId := 2 }

/-- Store for the booking commit check: one Scheduled appointment for doctor 7
on date 7 occupying exactly 10:00–10:30, stored — as the insert path stores
it — as a Postgres range literal. -/
def c1Store : Store := { avail := [], appts := [c2Appt], nextId := 2 }

/-- The appointment row `submit_appointment` inserts for the second, identical
10:00–10:30 request. -/
def c1NewAppt : AppointmentRow :=
  { id := 2, patient_id := 9, doctor_id := 7, date := 7,
    time_slot := postgresTimeSlot (dateISO 7) 600 630,
    status := .enumV .scheduled }

/-- A Scheduled appointment for patient 5, doctor 7, dated day 100. -/
def c7Appt : AppointmentRow :=
  { id := 1, patient_id := 5, doctor_id := 7, date := 100,
    time_slot := "range", status := .enumV .scheduled }

/-- Store holding only the Scheduled appointment. -/
def c7Store : Store := { avail := [], appts := [c7Appt], nextId := 2 }

/-- First descriptor of the overlapping pair: Tuesday 09:00–10:00. -/
def c3Desc1 : SlotData :=
  { doctor_id := some 7, id := none, day_of_week := 1, start_time := 540,
    end_time := 600, slot_duration_minutes := some 30, is_available := none }

/-- Second descriptor, same day, 09:30–10:30 — it overlaps the first. -/
def c3Desc2 : SlotData := { c3Desc1 with start_time := 570, end_time := 630 }

/-- The overlapping two-descriptor batch. -/
def c3Batch : List SlotData := [c3Desc1, c3Desc2]

/-- A store with no availability rows and no appointments. -/
def emptyStore : Store := { avail := [], appts := [], nextId := 1 }

/-- The slot created for the first descriptor of the overlapping batch. -/
def c3NewSlot1 : DoctorAvailabilitySlot :=
  { id := 1, doctor_id := 7, day_of_week := 1, start_time := 540,
    end_time := 600, slot_duration_minutes := some 30, is_available := true }

/-- The slot created for the second (overlapping) descriptor. -/
def c3NewSlot2 : DoctorAvailabilitySlot :=
  { id := 2, doctor_id := 7, day_of_week := 1, start_time := 570,
    end_time := 630, slot_duration_minutes := some 30, is_available := true }

/-- The failure oracle in which every `update_availability_slot` write fails. -/
def failUpdateOps : StoreOps :=
  { createOk := fun _ => true, updateOk := fun _ => false,
    deleteOk := fun _ => true }

/-- A stored Monday template for doctor 7, the update target. -/
def c8Slot : DoctorAvailabilitySlot :=
  { id := 1, doctor_id := 7, day_of_week := 0, start_time := 540,
    end_time := 600, slot_duration_minutes := some 30, is_available := true }

/-- Store containing only the update target. -/
def c8Store : Store := { avail := [c8Slot], appts := [], nextId := 2 }

/-- A descriptor updating stored slot 1 to Wednesday 05:00–06:00. -/
def c8Desc : SlotData :=
  { doctor_id := some 7, id := some 1, day_of_week := 2, start_time := 300,
    end_time := 360, slot_duration_minutes := some 45,
    is_available := some true }

/-- First of two identical Monday 09:00–10:00 templates for doctor 7. -/
def c9T1 : DoctorAvailabilitySlot :=
  { id := 1, doctor_id := 7, day_of_week := 0, start_time := 540,
    end_time := 600, slot_duration_minutes := some 30, is_available := true }

/-- The second, identical template (only the id differs). -/
def c9T2 : DoctorAvailabilitySlot := { c9T1 with id := 2 }

/-- Store holding the two identical templates. -/
def c9Store : Store := { avail := [c9T1, c9T2], appts := [], nextId := 3 }

/-- The list slot generation returns for the duplicated templates. -/
def c9Out : List SlotOut :=
  [⟨540, 570, 30⟩, ⟨570, 600, 30⟩, ⟨540, 570, 30⟩, ⟨570, 600, 30⟩]

theorem walkSlots_pos (t e d : Nat) (hd : 0 < d) (he : t + d ≤ e) :
    walkSlots t e d = (t, t + d) :: walkSlots (t + d) e d := by
  rw [walkSlots]
  simp [hd, he]

theorem walkSlots_stop (t e d : Nat) (h : ¬ (0 < d ∧ t + d ≤ e)) :
    walkSlots t e d = [] := by
  rw [walkSlots]
  simp only [h, dite_false]

/-- Every emitted candidate starts no earlier than the cursor, spans exactly the
duration, and ends within the template window. -/
theorem walkSlots_mem_bounds (t e d : Nat) :
    ∀ p ∈ walkSlots t e d, t ≤ p.1 ∧ p.2 = p.1 + d ∧ p.2 ≤ e := by
  by_cases h : 0 < d ∧ t + d ≤ e
  · rw [walkSlots_pos t e d h.1 h.2]
    intro p hp
    rcases List.mem_cons.mp hp with hp | hp
    · subst hp; exact ⟨Nat.le_refl t, rfl, h.2⟩
    · have := walkSlots_mem_bounds (t + d) e d p hp
      exact ⟨by omega, this.2.1, this.2.2⟩
  · rw [walkSlots_stop t e d h]
    intro p hp
    exact absurd hp (List.not_mem_nil p)
termination_by e - t
decreasing_by omega

/-- The candidate walk makes exactly `(e - t) / d` iterations: this is the
finite iteration count witnessing that the `while` loop terminates. -/
theorem walkSlots_length (t e d : Nat) (hd : 0 < d) :
    (walkSlots t e d).length = (e - t) / d := by
  by_cases h : t + d ≤ e
  · rw [walkSlots_pos t e d hd h, List.length_cons,
      walkSlots_length (t + d) e d hd]
    have h1 : e - (t + d) = e - t - d := by omega
    rw [h1]
    conv_rhs => rw [Nat.div_eq (e - t) d]
    rw [if_pos ⟨hd, by omega⟩]
  · rw [walkSlots_stop t e d (by omega)]
    have hlt : e - t < d := by omega
    simp [Nat.div_eq_of_lt hlt]
termination_by e - t
decreasing_by omega

/-- Consecutive candidates of the walk abut: each slot ends no later than any
later slot starts, and starts strictly increase. -/
theorem walkSlots_pairwise (t e d : Nat) :
    (walkSlots t e d).Pairwise (fun a b => a.2 ≤ b.1 ∧ a.1 < b.1) := by
  by_cases h : 0 < d ∧ t + d ≤ e
  · rw [walkSlots_pos t e d h.1 h.2]
    refine List.pairwise_cons.mpr ⟨?_, walkSlots_pairwise (t + d) e d⟩
    intro p hp
    have hb := walkSlots_mem_bounds (t + d) e d p hp
    exact ⟨hb.1, by omega⟩
  · rw [walkSlots_stop t e d h]
    exact List.Pairwise.nil
termination_by e - t
decreasing_by omega

theorem effectiveDuration_pos (dm : Option Nat) : 0 < effectiveDuration dm := by
  match dm with
  | none => decide
  | some 0 => decide
  | some (d + 1) => exact Nat.succ_pos d

theorem walkSlots_540 :
    walkSlots 540 720 30 =
      [(540, 570), (570, 600), (600, 630), (630, 660), (660, 690), (690, 720)] := by
  simp [walkSlots]

/-- C4: the three-clause overlap test used by slot generation and by the
reconciliation duplicate scan agrees with the half-open characterisation
`startA < endB ∧ startB < endA` on proper intervals, is symmetric there, and
reports no overlap for adjacent intervals sharing a boundary. -/
theorem overlap_predicate_halfopen_symmetric_adjacent (sA eA sB eB : Nat)
    (hA : sA < eA) (hB : sB < eB) :
    (overlaps3 sA eA sB eB = true ↔ (sA < eB ∧ sB < eA)) ∧
    overlaps3 sA eA sB eB = overlaps3 sB eB sA eA ∧
    (eA = sB → overlaps3 sA eA sB eB = false) := by
  refine ⟨?_, ?_, ?_⟩
  · simp only [overlaps3, Bool.or_eq_true, Bool.and_eq_true, decide_eq_true_eq]
    omega
  · rw [Bool.eq_iff_iff]
    simp only [overlaps3, Bool.or_eq_true, Bool.and_eq_true, decide_eq_true_eq]
    omega
  · intro hAdj
    rw [Bool.eq_false_iff]
    simp only [ne_eq, overlaps3, Bool.or_eq_true, Bool.and_eq_true,
      decide_eq_true_eq]
    omega

theorem overlap_predicate_halfopen_symmetric_adjacent_witness :
    (overlaps3 30 60 45 90 = true ↔ (30 < 90 ∧ 45 < 60)) ∧
    overlaps3 30 60 45 90 = overlaps3 45 90 30 60 ∧
    (60 = 45 → overlaps3 30 60 45 90 = false) :=
  overlap_predicate_halfopen_symmetric_adjacent 30 60 45 90 (by decide)
    (by decide)

/-- C10: for any stored `slot_duration_minutes` — a positive value, zero, or
unset (the latter two defaulted to 30 by `slot.slot_duration_minutes or 30`) —
the candidate-walking loop terminates, making exactly `(end - start) / duration`
iterations. -/
theorem slot_walk_terminates (dm : Option Nat) (t e : Nat) :
    0 < effectiveDuration dm ∧
    (walkSlots t e (effectiveDuration dm)).length =
      (e - t) / effectiveDuration dm :=
  ⟨effectiveDuration_pos dm,
    walkSlots_length t e (effectiveDuration dm) (effectiveDuration_pos dm)⟩

/-- C5: every candidate the walk emits starts at or after the cursor start,
spans exactly the duration, and ends within the template end; and Scenario A
(template 09:00–12:00, duration 30, no appointments) yields exactly the six
slots 09:00–09:30 through 11:30–12:00. -/
theorem slot_generation_respects_template_bounds :
    (∀ t e d, ∀ p ∈ walkSlots t e d, t ≤ p.1 ∧ p.2 = p.1 + d ∧ p.2 ≤ e) ∧
    get_available_slots_for_booking scenarioStore 7 7 =
      [⟨540, 570, 30⟩, ⟨570, 600, 30⟩, ⟨600, 630, 30⟩,
       ⟨630, 660, 30⟩, ⟨660, 690, 30⟩, ⟨690, 720, 30⟩] := by
  refine ⟨fun t e d => walkSlots_mem_bounds t e d, ?_⟩
  simp [get_available_slots_for_booking, get_availability_by_day,
    get_appointments_by_date, scenarioStore, scenarioTemplate, dayOfWeek,
    perSlotOutput, effectiveDuration, walkSlots_540]

theorem slot_generation_respects_template_bounds_witness :
    540 ≤ 540 ∧ 570 = 540 + 30 ∧ 570 ≤ 720 :=
  slot_generation_respects_template_bounds.1 540 720 30 (540, 570)
    (by rw [walkSlots_540]; exact List.mem_cons_self _ _)

/-- C2 (code bug): the per-appointment conflict test of
`get_available_slots_for_booking` reads the dict keys `start_time` and
`end_time`, which do not exist on appointment rows (the window is the
`time_slot` range string), so it is constantly false and no candidate slot is
ever marked unavailable; concretely, with a Scheduled appointment covering
10:00–10:30 the full six-slot list is still returned, 10:00–10:30 included. -/
theorem slot_conflict_filter_is_dead_code :
    (∀ s e a, conflictsWithAppt s e a = false) ∧
    get_appointments_by_date c2Store 7 7 = [c2Appt] ∧
    get_available_slots_for_booking c2Store 7 7 =
      [⟨540, 570, 30⟩, ⟨570, 600, 30⟩, ⟨600, 630, 30⟩,
       ⟨630, 660, 30⟩, ⟨660, 690, 30⟩, ⟨690, 720, 30⟩] := by
  refine ⟨fun s e a => rfl, rfl, ?_⟩
  simp [get_available_slots_for_booking, get_availability_by_day,
    get_appointments_by_date, c2Store, c2Appt, scenarioTemplate, dayOfWeek,
    perSlotOutput, conflictsWithAppt, AppointmentRow.getStartTimeKey,
    AppointmentRow.getEndTimeKey, effectiveDuration, walkSlots_540]

/-- C1 (code bug): the commit-time conflict check of `submit_appointment`
compares the 12-hour display string submitted by the form against the stored
`time_slot` range literals for exact string equality; the two formats never
coincide, so a request for a window already held by a Scheduled appointment is
still inserted, producing two overlapping Scheduled appointments. -/
theorem booking_recheck_misses_conflicts :
    displayTimeSlot 600 630 = "10:00 AM - 10:30 AM" ∧
    c2Appt.time_slot = "[\"7 10:00:00+00\",\"7 10:30:00+00\")" ∧
    submit_appointment c1Store 7 9 7 600 630 =
      .booked { avail := [], appts := [c2Appt, c1NewAppt], nextId := 3 } := by
  refine ⟨rfl, rfl, ?_⟩
  rfl

/-- The status gate of `cancel_appointment` never rejects: an enum member
(every status loaded through `from_dict`) skips the comparison entirely, and a
raw string equal to `'completed'` or `'cancelled'` would have converted, so the
fallback comparison is unreachable too. -/
theorem cancelStatusRejects_false (ps : PyStatus) :
    cancelStatusRejects ps = false := by
  cases ps with
  | enumV s => rfl
  | noneV => rfl
  | strV s =>
      simp only [cancelStatusRejects]
      by_cases hc : s = "completed"
      · subst hc; rfl
      · by_cases hx : s = "cancelled"
        · subst hx; rfl
        · simp only [statusOfString]
          split
          · rfl
          · simp [hc, hx]

/-- C7 counterexample: a Scheduled appointment whose date is not in the past
— exactly the case in which the claim says Cancel succeeds and transitions the
status to Cancelled — ends in the caught `TypeError` of the status write: an
error is flashed and the appointment is left unchanged (the embedding carries
no success path because none is reachable in the program). -/
theorem cancel_scheduled_never_succeeds :
    cancel_appointment c7Store 5 1 100 = .updateError := by
  rfl

/-- C7 amended: `cancel_appointment` never transitions any appointment to
Cancelled.  For an owned appointment, the outcome depends only on the
past-date test: a past date is rejected, and every other appointment —
Scheduled, Completed, Cancelled or NoShow alike, since the status gate is
dead code — reaches the malformed `db.update` call, whose `TypeError` is
caught and reported as an error, leaving the store unchanged. -/
theorem cancel_never_cancels (st : Store)
    (patientId apptId today : Nat) (row : AppointmentRow)
    (hfind : st.appts.find? (fun a => a.id == apptId) = some row)
    (hown : row.patient_id = patientId) :
    cancel_appointment st patientId apptId today =
      if row.date < today then .pastRejected else .updateError := by
  unfold cancel_appointment
  rw [hfind]
  simp only [hown, ne_eq, not_true_eq_false, if_false,
    cancelStatusRejects_false, Bool.false_eq_true]

theorem cancel_never_cancels_witness :
    cancel_appointment c7Store 5 1 100 =
      if c7Appt.date < 100 then CancelResult.pastRejected
      else CancelResult.updateError :=
  cancel_never_cancels c7Store 5 1 100 c7Appt rfl rfl

/-- Every run of `bulk_update_availability` that gets past the two guard
checks (non-empty batch carrying a usable doctor id) reports success,
whatever the duplicate scan found and whatever store writes fail. -/
theorem bulk_update_returns_true (ops : StoreOps) (st : Store)
    (batch : List SlotData) (hdoc : (extractDoctorId batch).isSome = true) :
    (bulk_update_availability ops st batch).2 = true := by
  obtain ⟨i, hi⟩ := Option.isSome_iff_exists.mp hdoc
  have hne : batch.isEmpty = false := by
    cases batch with
    | nil => simp [extractDoctorId] at hi
    | cons a l => rfl
  unfold bulk_update_availability
  simp [hne, hi]

/-- C3 counterexample: the duplicate scan does find the overlapping pair
(descriptor 1 against descriptor 0), yet the batch is not rejected — both
descriptors are persisted and the call reports success. -/
theorem reconcile_overlap_only_logged :
    detectOverlaps c3Batch = [(1, 0)] ∧
    bulk_update_availability allOk emptyStore c3Batch =
      ({ avail := [c3NewSlot1, c3NewSlot2], appts := [], nextId := 3 }, true) ∧
    (bulk_update_availability allOk emptyStore c3Batch).1 ≠ emptyStore := by
  refine ⟨rfl, rfl, by decide⟩

/-- C3 amended: a batch whose desired set contains same-day overlapping
windows is detected by the scan but never rejected: the batch is still applied
and the call reports success. -/
theorem reconcile_applies_overlapping_batches (ops : StoreOps) (st : Store)
    (batch : List SlotData) (_hov : detectOverlaps batch ≠ [])
    (hdoc : (extractDoctorId batch).isSome = true) :
    (bulk_update_availability ops st batch).2 = true :=
  bulk_update_returns_true ops st batch hdoc

theorem reconcile_applies_overlapping_batches_witness :
    (bulk_update_availability allOk emptyStore c3Batch).2 = true :=
  reconcile_applies_overlapping_batches allOk emptyStore c3Batch (by decide)
    (by decide)

/-- C8 counterexample: the single record's update write fails, the stored row
is left untouched, yet the call still reports overall success with no failed
id surfaced (the result carries no per-record report at all); and a store
error in `get_available_booking_slots` is converted into an empty result. -/
theorem reconcile_masks_record_failures :
    bulk_update_availability failUpdateOps c8Store [c8Desc] =
      (c8Store, true) ∧
    get_available_booking_slots (.error "connection reset") = [] :=
  ⟨rfl, rfl⟩

/-- C8 amended: per-record persistence failures after validation are only
logged — the call reports success for every guard-passing batch under every
failure oracle — and an unexpected store error in the slot query is returned
as an empty success instead of an error. -/
theorem reconcile_success_despite_store_failures (ops : StoreOps) (st : Store)
    (batch : List SlotData) (hdoc : (extractDoctorId batch).isSome = true)
    (e : String) :
    (bulk_update_availability ops st batch).2 = true ∧
    get_available_booking_slots (.error e) = [] :=
  ⟨bulk_update_returns_true ops st batch hdoc, rfl⟩

theorem reconcile_success_despite_store_failures_witness :
    (bulk_update_availability failUpdateOps c8Store [c8Desc]).2 = true ∧
    get_available_booking_slots (.error "connection reset") = [] :=
  reconcile_success_despite_store_failures failUpdateOps c8Store [c8Desc]
    (by decide) "connection reset"

theorem tryCreateSlot_nextId (ops : StoreOps) (doc : Nat) (d : SlotData)
    (dur : Nat) (ps : ProcState) :
    (tryCreateSlot ops doc d dur ps).store.nextId = ps.store.nextId + 1 := by
  simp only [tryCreateSlot]
  split <;> rfl

theorem tryCreateSlot_processed (ops : StoreOps) (doc : Nat) (d : SlotData)
    (dur : Nat) (ps : ProcState) :
    ∀ j ∈ (tryCreateSlot ops doc d dur ps).processed,
      j ∈ ps.processed ∨ j = ps.store.nextId := by
  simp only [tryCreateSlot]
  split
  · intro j hj
    rcases List.mem_append.mp hj with hj | hj
    · exact Or.inl hj
    · exact Or.inr (List.mem_singleton.mp hj)
  · intro j hj
    exact Or.inl hj

theorem processSlot_nextId_mono (ops : StoreOps) (ids : List Nat) (doc : Nat)
    (ps : ProcState) (d : SlotData) :
    ps.store.nextId ≤ (processSlot ops ids doc ps d).store.nextId := by
  cases hid : d.id with
  | none =>
      simp only [processSlot, hid]
      rw [tryCreateSlot_nextId]
      omega
  | some i =>
      simp only [processSlot, hid]
      by_cases hc : ids.contains i = true
      · rw [if_pos hc]
        by_cases hu : ops.updateOk i = true
        · rw [if_pos hu]
        · rw [if_neg hu]
      · rw [if_neg hc]
        rw [tryCreateSlot_nextId]
        omega

theorem processSlot_processed_spec (ops : StoreOps) (ids : List Nat)
    (doc : Nat) (ps : ProcState) (d : SlotData) :
    ∀ j ∈ (processSlot ops ids doc ps d).processed,
      j ∈ ps.processed ∨ d.id = some j ∨ ps.store.nextId ≤ j := by
  cases hid : d.id with
  | none =>
      simp only [processSlot, hid]
      intro j hj
      rcases tryCreateSlot_processed ops doc d _ ps j hj with hj | hj
      · exact Or.inl hj
      · exact Or.inr (Or.inr (Nat.le_of_eq hj.symm))
  | some i =>
      simp only [processSlot, hid]
      by_cases hc : ids.contains i = true
      · rw [if_pos hc]
        by_cases hu : ops.updateOk i = true
        · rw [if_pos hu]
          intro j hj
          rcases List.mem_append.mp hj with hj | hj
          · exact Or.inl hj
          · exact Or.inr (Or.inl (by rw [List.mem_singleton.mp hj]))
        · rw [if_neg hu]
          intro j hj
          rcases List.mem_append.mp hj with hj | hj
          · exact Or.inl hj
          · exact Or.inr (Or.inl (by rw [List.mem_singleton.mp hj]))
      · rw [if_neg hc]
        intro j hj
        rcases tryCreateSlot_processed ops doc d _ ps j hj with hj | hj
        · exact Or.inl hj
        · exact Or.inr (Or.inr (Nat.le_of_eq hj.symm))

theorem foldl_processSlot_nextId_mono (ops : StoreOps) (ids : List Nat)
    (doc : Nat) (batch : List SlotData) (ps : ProcState) :
    ps.store.nextId ≤
      (batch.foldl (processSlot ops ids doc) ps).store.nextId := by
  induction batch generalizing ps with
  | nil => exact Nat.le_refl _
  | cons d rest ih =>
      rw [List.foldl_cons]
      exact Nat.le_trans (processSlot_nextId_mono ops ids doc ps d)
        (ih (processSlot ops ids doc ps d))

theorem foldl_processSlot_processed_spec (ops : StoreOps) (ids : List Nat)
    (doc : Nat) (batch : List SlotData) (ps : ProcState) :
    ∀ j ∈ (batch.foldl (processSlot ops ids doc) ps).processed,
      j ∈ ps.processed ∨ (∃ d ∈ batch, d.id = some j) ∨
        ps.store.nextId ≤ j := by
  induction batch generalizing ps with
  | nil => intro j hj; exact Or.inl hj
  | cons d rest ih =>
      intro j hj
      rw [List.foldl_cons] at hj
      rcases ih (processSlot ops ids doc ps d) j hj with hj1 | hj1 | hj1
      · rcases processSlot_processed_spec ops ids doc ps d j hj1
          with h2 | h2 | h2
        · exact Or.inl h2
        · exact Or.inr (Or.inl ⟨d, List.mem_cons_self d rest, h2⟩)
        · exact Or.inr (Or.inr h2)
      · obtain ⟨d2, hd2, h2⟩ := hj1
        exact Or.inr (Or.inl ⟨d2, List.mem_cons_of_mem d hd2, h2⟩)
      · exact Or.inr (Or.inr
          (Nat.le_trans (processSlot_nextId_mono ops ids doc ps d) hj1))

theorem deleteStep_avail_subset (ops : StoreOps) (proc : List Nat)
    (st : Store) (i : Nat) :
    ∀ s ∈ (deleteStep ops proc st i).avail, s ∈ st.avail := by
  unfold deleteStep
  split
  · intro s hs; exact hs
  · split
    · intro s hs; exact List.mem_of_mem_filter hs
    · intro s hs; exact hs

theorem foldl_deleteStep_subset (ops : StoreOps) (proc : List Nat) :
    ∀ (ids : List Nat) (st : Store),
      ∀ s ∈ (ids.foldl (deleteStep ops proc) st).avail, s ∈ st.avail := by
  intro ids
  induction ids with
  | nil => intro st s hs; exact hs
  | cons i rest ih =>
      intro st s hs
      rw [List.foldl_cons] at hs
      exact deleteStep_avail_subset ops proc st i s
        (ih (deleteStep ops proc st i) s hs)

theorem foldl_deleteStep_removes (ops : StoreOps) (proc : List Nat) :
    ∀ (ids : List Nat) (st : Store) (k : Nat), k ∈ ids →
      proc.contains k = false → ops.deleteOk k = true →
      ∀ s ∈ (ids.foldl (deleteStep ops proc) st).avail, s.id ≠ k := by
  intro ids
  induction ids with
  | nil => intro st k hk; exact absurd hk (List.not_mem_nil k)
  | cons i rest ih =>
      intro st k hk hp hdel s hs
      rw [List.foldl_cons] at hs
      by_cases hik : i = k
      · subst hik
        have hstep : (deleteStep ops proc st i).avail =
            st.avail.filter (fun s => s.id != i) := by
          simp only [deleteStep, hp, Bool.false_eq_true, if_false, hdel,
            if_true]
        have hsub := foldl_deleteStep_subset ops proc rest
          (deleteStep ops proc st i) s hs
        rw [hstep] at hsub
        have := (List.mem_filter.mp hsub).2
        simpa using this
      · have hk2 : k ∈ rest := by
          rcases List.mem_cons.mp hk with h | h
          · exact absurd h.symm hik
          · exact h
        exact ih (deleteStep ops proc st i) k hk2 hp hdel s hs

theorem foldl_deleteStep_filter_nil (ops : StoreOps) (proc ids : List Nat)
    (st : Store) (k : Nat) (hk : k ∈ ids) (hp : proc.contains k = false)
    (hdel : ops.deleteOk k = true) :
    (ids.foldl (deleteStep ops proc) st).avail.filter
      (fun s => s.id == k) = [] := by
  rw [List.filter_eq_nil_iff]
  intro a ha
  have := foldl_deleteStep_removes ops proc ids st k hk hp hdel a ha
  simpa using this

theorem processed_contains_false (ops : StoreOps) (ids : List Nat)
    (doctorId : Nat) (batch : List SlotData) (st : Store) (k : Nat)
    (hlt : k < st.nextId) (href : ∀ d ∈ batch, d.id ≠ some k) :
    (batch.foldl (processSlot ops ids doctorId)
      ⟨st, []⟩).processed.contains k = false := by
  cases hcb : (batch.foldl (processSlot ops ids doctorId)
      ⟨st, []⟩).processed.contains k with
  | false => rfl
  | true =>
      exfalso
      have hmemp : k ∈ (batch.foldl (processSlot ops ids doctorId)
          ⟨st, []⟩).processed := by
        simpa using hcb
      rcases foldl_processSlot_processed_spec ops ids doctorId batch
        ⟨st, []⟩ k hmemp with h | h | h
      · exact absurd h (List.not_mem_nil k)
      · obtain ⟨d, hd, hid⟩ := h
        exact href d hd hid
      · have h2 : st.nextId ≤ k := h
        omega

theorem mem_existing_ids (st : Store) (doctorId : Nat)
    (slot : DoctorAvailabilitySlot) (hmem : slot ∈ st.avail)
    (hdocid : slot.doctor_id = doctorId) :
    slot.id ∈ (st.avail.filter (fun s => s.doctor_id == doctorId)).map
      (fun s => s.id) :=
  List.mem_map_of_mem (fun s => s.id)
    (List.mem_filter.mpr ⟨hmem, by simp [hdocid]⟩)

theorem bulk_update_eq_of_some (ops : StoreOps) (st : Store)
    (batch : List SlotData) (doctorId : Nat)
    (hne : batch.isEmpty = false)
    (hdoc : extractDoctorId batch = some doctorId)
    (ids : List Nat)
    (hids : ids = (st.avail.filter (fun s => s.doctor_id == doctorId)).map
      (fun s => s.id))
    (ps : ProcState)
    (hps : ps = batch.foldl (processSlot ops ids doctorId) ⟨st, []⟩) :
    bulk_update_availability ops st batch =
      (ids.foldl (deleteStep ops ps.processed) ps.store, true) := by
  subst hids
  subst hps
  unfold bulk_update_availability
  simp [hne, hdoc]

/-- C6 counterexample: the claim quantifies over every desired set including
the empty one, but an empty submission is rejected by the guard and deletes
nothing — the stored, unreferenced template survives. -/
theorem reconcile_empty_set_deletes_nothing :
    bulk_update_availability allOk c8Store [] = (c8Store, false) ∧
    c8Store.avail = [c8Slot] :=
  ⟨rfl, rfl⟩

/-- C6 amended: for every non-empty desired set carrying a usable doctor id
and every pattern of create/update failures, provided the store delete of the
template in question succeeds, every stored template of that doctor whose id
no descriptor references is deleted by the end of the run. -/
theorem reconcile_deletes_unreferenced (ops : StoreOps) (st : Store)
    (batch : List SlotData) (doctorId : Nat)
    (slot : DoctorAvailabilitySlot)
    (hdel : ops.deleteOk slot.id = true)
    (hwf : ∀ s ∈ st.avail, s.id < st.nextId)
    (hdoc : extractDoctorId batch = some doctorId)
    (hmem : slot ∈ st.avail) (hdocid : slot.doctor_id = doctorId)
    (href : ∀ d ∈ batch, d.id ≠ some slot.id) :
    ((bulk_update_availability ops st batch).1.avail.filter
      (fun s => s.id == slot.id)) = [] := by
  have hne : batch.isEmpty = false := by
    cases batch with
    | nil => simp [extractDoctorId] at hdoc
    | cons a l => rfl
  rw [bulk_update_eq_of_some ops st batch doctorId hne hdoc _ rfl _ rfl]
  exact foldl_deleteStep_filter_nil ops _ _ _ slot.id
    (mem_existing_ids st doctorId slot hmem hdocid)
    (processed_contains_false ops _ doctorId batch st slot.id
      (hwf slot hmem) href)
    hdel

theorem reconcile_deletes_unreferenced_witness :
    ((bulk_update_availability failUpdateOps c8Store [c3Desc1]).1.avail.filter
      (fun s => s.id == c8Slot.id)) = [] :=
  reconcile_deletes_unreferenced failUpdateOps c8Store [c3Desc1] 7 c8Slot rfl
    (by decide) rfl (by decide) rfl (by decide)

theorem walkSlots_540_600 :
    walkSlots 540 600 30 = [(540, 570), (570, 600)] := by
  simp [walkSlots]

/-- C9 counterexample: with two templates generating identical windows the
returned list is not chronologically sorted, contains duplicate windows, and
contains overlapping slots. -/
theorem slots_not_sorted_nor_deduplicated :
    get_available_slots_for_booking c9Store 7 7 = c9Out ∧
    ¬ c9Out.Pairwise (fun a b => a.start_time ≤ b.start_time) ∧
    ¬ c9Out.Nodup ∧
    ¬ c9Out.Pairwise (fun a b =>
        ¬ (a.start_time < b.end_time ∧ b.start_time < a.end_time)) := by
  refine ⟨?_, by decide, by decide, by decide⟩
  simp [get_available_slots_for_booking, get_availability_by_day,
    get_appointments_by_date, c9Store, c9T1, c9T2, c9Out, dayOfWeek,
    perSlotOutput, effectiveDuration, walkSlots_540_600]

/-- C9 amended: slot generation concatenates each template's walk in stored
order, with no cross-template sorting or deduplication; within a single
template the produced slots are chronologically sorted, pairwise
non-overlapping, and duplicate-free (each slot ends no later than the next
starts, and starts strictly increase). -/
theorem slots_sorted_within_single_template
    (appointments : List AppointmentRow) (s : DoctorAvailabilitySlot) :
    (perSlotOutput appointments s).Pairwise
      (fun a b => a.end_time ≤ b.start_time ∧ a.start_time < b.start_time) ∧
    ∀ st doctorId date,
      get_available_slots_for_booking st doctorId date =
        ((get_availability_by_day st doctorId (dayOfWeek date)).map
          (perSlotOutput (get_appointments_by_date st doctorId date))).flatten
    := by
  constructor
  · simp only [perSlotOutput]
    split
    · refine List.Pairwise.filterMap _ ?_
        (walkSlots_pairwise s.start_time s.end_time
          (effectiveDuration s.slot_duration_minutes))
      intro a a' hr b hb b' hb'
      split at hb
      · exact absurd hb (Option.not_mem_none b)
      · split at hb'
        · exact absurd hb' (Option.not_mem_none b')
        · obtain rfl := Option.mem_some_iff.mp hb
          obtain rfl := Option.mem_some_iff.mp hb'
          exact ⟨hr.1, hr.2⟩
    · exact List.Pairwise.nil
  · intro st doctorId date
    rfl
